import Mathlib

/-!
Verification of the MOPS announcement fetcher (scripts/fetch_mops.py): the
keyword matcher, the identity-key builder, the dedup ledger and the main
classification pipeline, shallowly embedded over lists of characters.
Strings are lists of characters; Python dicts are association lists; the
file system and HTTP endpoints are passed in as explicit functions.
-/

namespace MopsGetter

/-- Strings are modeled as lists of characters. -/
abbrev Str := List Char

/-- Characters of a string literal, for writing concrete values. -/
def str (s : String) : Str := s.data

/-- Whitespace as matched by the regex class in normalize_text and by
str.strip, restricted to its ASCII members (space, tab, newline, carriage
return, vertical tab, form feed). -/
def isWS (c : Char) : Bool :=
  c = ' ' || c = '\t' || c = '\n' || c = '\r' || c = Char.ofNat 11 || c = Char.ofNat 12

/-- Python s.replace of the two-character sequence carriage return and
newline by a single newline (line 28). -/
def replaceCRLF : Str → Str
  | [] => []
  | '\r' :: '\n' :: rest => '\n' :: replaceCRLF rest
  | c :: rest => c :: replaceCRLF rest

/-- Python s.replace of a carriage return by a newline (line 28). -/
def replaceCR (s : Str) : Str :=
  s.map (fun c => if c = '\r' then '\n' else c)

/-- Worker for the regex substitution replacing every maximal whitespace run
by one space: the flag records whether the previous character was part of a
run already replaced. -/
def subWSAux : Bool → Str → Str
  | _, [] => []
  | inRun, c :: rest =>
    if isWS c then
      if inRun then subWSAux true rest else ' ' :: subWSAux true rest
    else c :: subWSAux false rest

/-- Regex substitution of every maximal run of whitespace by a single space
(line 29). -/
def subWS (s : Str) : Str := subWSAux false s

/-- Python str.strip: drop whitespace from both ends (line 29). -/
def stripWS (s : Str) : Str :=
  ((s.dropWhile isWS).reverse.dropWhile isWS).reverse

/-- Python normalize_text (lines 26-30): normalize line endings, collapse
every whitespace run to a single space, and trim the ends. -/
def normalize_text (s : Str) : Str :=
  stripWS (subWS (replaceCR (replaceCRLF s)))

/-- Python substring containment, the expression k in subject: true exactly
when k occurs contiguously in s (the empty string is contained in every
string). -/
def containsSub : Str → Str → Bool
  | [], k => k.isEmpty
  | c :: t, k => k.isPrefixOf (c :: t) || containsSub t k

/-- Python match_keywords (lines 45-50): the keywords contained in the
subject, kept in keyword-list order. -/
def match_keywords (subject : Str) (keywords : List Str) : List Str :=
  keywords.filter (fun k => containsSub subject k)

/-- A Python value as JSON deserialization produces it inside listing rows,
detail parameters and the state file: strings, integers, booleans, None,
arrays and string-keyed objects. Floating-point numbers are not modeled; no
claim depends on them. -/
inductive RVal where
  | vstr (s : Str)
  | vint (n : Int)
  | vbool (b : Bool)
  | vnull
  | vlist (elems : List RVal)
  | vdict (entries : List (Str × RVal))

/-- Python str() on a value. Exact for strings, integers, booleans and None;
arrays and objects get an abbreviated rendering, which no claim inspects
(the listing rows of interest carry strings in their text cells). -/
def pyStrOf : RVal → Str
  | .vstr s => s
  | .vint n => (toString n).data
  | .vbool true => str "True"
  | .vbool false => str "False"
  | .vnull => str "None"
  | .vlist _ => str "[...]"
  | .vdict _ => str "\x7b...\x7d"

/-- Python truthiness of a value: empty strings, zero, False, None and empty
containers are falsy. -/
def pyTruthy : RVal → Bool
  | .vstr s => !s.isEmpty
  | .vint n => n != 0
  | .vbool b => b
  | .vnull => false
  | .vlist l => !l.isEmpty
  | .vdict d => !d.isEmpty

/-- A Python dict of strings to values, as an association list (the dicts
produced by JSON deserialization bind each key once; lookups read the first
binding). -/
abbrev Params := List (Str × RVal)

/-- Python dict.get(k): the value bound to k, or None, modeled as Option. -/
def pget (p : Params) (k : Str) : Option RVal :=
  match p with
  | [] => none
  | (k', v) :: rest => if k' = k then some v else pget rest k

/-- Interpolation of a dict.get result into an f-string: a miss renders as
the text None, a hit renders by str(). -/
def fTok : Option RVal → Str
  | none => str "None"
  | some v => pyStrOf v

/-- Python build_item_key (lines 105-107): the four identity sub-fields of
the detail parameters, interpolated into one string with a vertical-bar
separator. -/
def build_item_key (params : Params) : Str :=
  fTok (pget params (str "enterDate")) ++ str "|" ++
  fTok (pget params (str "marketKind")) ++ str "|" ++
  fTok (pget params (str "companyId")) ++ str "|" ++
  fTok (pget params (str "serialNumber"))

/-- Failure of json.load on a file that exists but does not parse. -/
inductive CorruptState where
  | corrupt

/-- A file system as load_state sees it: none when a path does not exist,
otherwise the outcome of parsing the contents of the file at that path. -/
abbrev Fs := Str → Option (Except CorruptState RVal)

/-- Python load_state (lines 66-70): the parsed state file, or the default
document with an empty seen_keys list when the path does not exist. -/
def load_state (fs : Fs) (path : Str) : Except CorruptState RVal :=
  match fs path with
  | none => .ok (.vdict [(str "seen_keys", .vlist [])])
  | some outcome => outcome

/-- Python state.get(k, dflt) on a parsed state document (line 132); the
program only applies it to dict documents. -/
def dictGetD (v : RVal) (k : Str) (dflt : RVal) : RVal :=
  match v with
  | .vdict d => match pget d k with
    | some x => x
    | none => dflt
  | _ => dflt

/-- String elements of an array value; ledger documents written by this
program hold only strings under seen_keys. -/
def strElems (v : RVal) : List Str :=
  match v with
  | .vlist l => l.filterMap (fun e => match e with | .vstr s => some s | _ => none)
  | _ => []

/-- Python set(state.get(seen keys, [])) at line 132: the seen-key set a run
starts from, extracted from the loaded state document. -/
def seen_keys_of (st : RVal) : Finset Str :=
  (strElems (dictGetD st (str "seen_keys") (.vlist []))).toFinset

/-- Python sorted on a set of strings: its elements in increasing
lexicographic order. -/
def pySorted (X : Finset Str) : List Str :=
  Finset.sort (· ≤ ·) X

/-- The ledger document persisted at the end of a run (line 224): a dict
binding seen_keys to the sorted list of seen keys. -/
def state_doc (seen : Finset Str) : RVal :=
  .vdict [(str "seen_keys", .vlist ((pySorted seen).map .vstr))]

/-- A file-system effect, for describing what save_json performs. -/
inductive FsOp where
  | mkdirs (dir : Str)
  | writeFile (path : Str) (contents : RVal)
  | rename (src : Str) (dst : Str)

/-- Python os.path.dirname, simplified to the text before the last slash
(empty when there is none); no claim inspects the directory name itself. -/
def dirname (p : Str) : Str :=
  match p.reverse.dropWhile (fun c => c ≠ '/') with
  | [] => []
  | _ :: t => t.reverse

/-- Python save_json (lines 73-76) as the sequence of file-system effects it
performs: create the missing parent directories, then open the destination
path itself for writing and dump the document into it. -/
def save_json (path : Str) (obj : RVal) : List FsOp :=
  [.mkdirs (dirname path), .writeFile path obj]

/-- Recognizer for a rename effect. -/
def isRenameOp : FsOp → Bool
  | .rename _ _ => true
  | _ => false

/-- One matched announcement as assembled in the loop body (lines 163-175). -/
structure Item where
  key : Str
  speech_date : Str
  speech_time : Str
  company_id : Str
  company_name : Str
  subject : Str
  matched_keywords : List Str
  detail_params : Params
  detail : RVal
  fetched_at_tw : Str

/-- Extraction of the detail parameters from the sixth cell of a row (lines
149-152): a non-dict cell degrades to the empty dict; a missing or falsy
parameters entry degrades to the empty dict (the Python or-expression); a
truthy non-dict parameters value makes the row skipped, returned as none. -/
def paramsOf (cell : RVal) : Option Params :=
  let detail_meta : List (Str × RVal) := match cell with | .vdict d => d | _ => []
  let p : RVal := match pget detail_meta (str "parameters") with
    | none => .vdict []
    | some v => if pyTruthy v then v else .vdict []
  match p with
  | .vdict d => some d
  | _ => none

/-- Per-row body of the main loop (lines 137-175), up to the append of the
assembled item: none when the row is skipped, because it is not an array of
at least six cells, or its detail parameters are rejected, or no keyword
hits. The argument fetch stands for the detail endpoint (http_post_json on
DETAIL_API) and now for the formatted run timestamp now_tw. -/
def processRow (keywords : List Str) (fetch : Params → RVal) (now : Str) :
    RVal → Option Item
  | .vlist (c0 :: c1 :: c2 :: c3 :: c4 :: c5 :: _) =>
    match paramsOf c5 with
    | none => none
    | some params =>
      let subject := normalize_text (pyStrOf c4)
      let hits := match_keywords subject keywords
      if hits.isEmpty then none
      else
        some {
          key := build_item_key params
          speech_date := normalize_text (pyStrOf c0)
          speech_time := normalize_text (pyStrOf c1)
          company_id := normalize_text (pyStrOf c2)
          company_name := normalize_text (pyStrOf c3)
          subject := subject
          matched_keywords := hits
          detail_params := params
          detail := fetch params
          fetched_at_tw := now }
  | _ => none

/-- Classification loop of main (lines 137-178): the pair of matched_items
and new_matched_items, both in listing order. The set seen0 is the seen-key
set loaded from the state file; the loop never modifies it (seen_keys is
only extended after the loop, at lines 180-182). -/
def mainLoop (keywords : List Str) (fetch : Params → RVal) (now : Str)
    (seen0 : Finset Str) : List RVal → List Item × List Item
  | [] => ([], [])
  | row :: rest =>
    match processRow keywords fetch now row with
    | none => mainLoop keywords fetch now seen0 rest
    | some item =>
      let tail := mainLoop keywords fetch now seen0 rest
      (item :: tail.1, if item.key ∈ seen0 then tail.2 else item :: tail.2)

/-- Lines 180-182: after the loop, the key of every matched item is added to
the seen-key set (Python set.add, modeled by Finset.insert). -/
def updateSeen (seen : Finset Str) (items : List Item) : Finset Str :=
  items.foldl (fun s it => insert it.key s) seen

/-- Shape check of line 139: the row is an array of at least six cells. -/
def rowShapeOk : RVal → Bool
  | .vlist cells => decide (6 ≤ cells.length)
  | _ => false

/-- Parameter check of lines 149-152: the row has at least six cells and its
extracted detail parameters form a dict. -/
def rowParamsOk : RVal → Bool
  | .vlist (_ :: _ :: _ :: _ :: _ :: c5 :: _) => (paramsOf c5).isSome
  | _ => false

/-- A well-formed sample listing row, for concrete witnesses: six cells,
the subject contains the sample keyword, and the detail parameters carry
only an enterDate. -/
def sampleRow : RVal :=
  RVal.vlist [RVal.vstr (str "114/01/02"), RVal.vstr (str "17:32:17"),
    RVal.vstr (str "3004"), RVal.vstr (str "Co"),
    RVal.vstr (str "about kw today"),
    RVal.vdict [((str "parameters"),
      RVal.vdict [((str "enterDate"), RVal.vstr (str "1140102"))])]]

/-! Lemmas about the keyword matcher. -/

/-- Python containment agrees with the mathematical infix relation. -/
theorem containsSub_iff_infix (s k : Str) : containsSub s k = true ↔ k <:+: s := by
  induction s with
  | nil =>
    simp [containsSub, List.isEmpty_iff]
  | cons c t ih =>
    simp [containsSub, List.isPrefixOf_iff_prefix, ih, List.infix_cons_iff]

/-- C4: over any subject S and keyword list K, matching against the
whitespace-normalized subject returns a subsequence of K in keyword order;
a keyword is returned exactly when it is a substring of the normalized
subject (no false positives, no false negatives); and the empty keyword
list yields no matches. -/
theorem match_keywords_sound_complete (S : Str) (K : List Str) :
    (match_keywords (normalize_text S) K).Sublist K ∧
    (∀ k : Str, k ∈ match_keywords (normalize_text S) K ↔
      k ∈ K ∧ k <:+: normalize_text S) ∧
    match_keywords (normalize_text S) [] = [] := by
  refine ⟨List.filter_sublist K, fun k => ?_, rfl⟩
  simp [match_keywords, List.mem_filter, containsSub_iff_infix]

/-! Lemmas about the identity-key builder. -/

/-- C2 amended: build_item_key depends only on the four identity sub-fields,
so equal values on all four imply equal keys; and whenever the serialized
forms of the four sub-fields (a missing field rendering as the sentinel
text None) differ in exactly one position, with the other three serialized
forms equal, the keys differ. Differing field values with the same
serialization can still collide, as the counterexample shows. -/
theorem build_item_key_fields (p q : Params) :
    ((pget p (str "enterDate") = pget q (str "enterDate") ∧
      pget p (str "marketKind") = pget q (str "marketKind") ∧
      pget p (str "companyId") = pget q (str "companyId") ∧
      pget p (str "serialNumber") = pget q (str "serialNumber")) →
      build_item_key p = build_item_key q) ∧
    (fTok (pget p (str "enterDate")) ≠ fTok (pget q (str "enterDate")) →
      fTok (pget p (str "marketKind")) = fTok (pget q (str "marketKind")) →
      fTok (pget p (str "companyId")) = fTok (pget q (str "companyId")) →
      fTok (pget p (str "serialNumber")) = fTok (pget q (str "serialNumber")) →
      build_item_key p ≠ build_item_key q) ∧
    (fTok (pget p (str "enterDate")) = fTok (pget q (str "enterDate")) →
      fTok (pget p (str "marketKind")) ≠ fTok (pget q (str "marketKind")) →
      fTok (pget p (str "companyId")) = fTok (pget q (str "companyId")) →
      fTok (pget p (str "serialNumber")) = fTok (pget q (str "serialNumber")) →
      build_item_key p ≠ build_item_key q) ∧
    (fTok (pget p (str "enterDate")) = fTok (pget q (str "enterDate")) →
      fTok (pget p (str "marketKind")) = fTok (pget q (str "marketKind")) →
      fTok (pget p (str "companyId")) ≠ fTok (pget q (str "companyId")) →
      fTok (pget p (str "serialNumber")) = fTok (pget q (str "serialNumber")) →
      build_item_key p ≠ build_item_key q) ∧
    (fTok (pget p (str "enterDate")) = fTok (pget q (str "enterDate")) →
      fTok (pget p (str "marketKind")) = fTok (pget q (str "marketKind")) →
      fTok (pget p (str "companyId")) = fTok (pget q (str "companyId")) →
      fTok (pget p (str "serialNumber")) ≠ fTok (pget q (str "serialNumber")) →
      build_item_key p ≠ build_item_key q) := by
  refine ⟨?_, ?_, ?_, ?_, ?_⟩
  · rintro ⟨h1, h2, h3, h4⟩
    simp only [build_item_key, h1, h2, h3, h4]
  · intro h1 h2 h3 h4 hkey
    apply h1
    simp only [build_item_key, h2, h3, h4, List.append_assoc] at hkey
    exact List.append_cancel_right hkey
  · intro h1 h2 h3 h4 hkey
    apply h2
    simp only [build_item_key, h1, h3, h4, List.append_assoc] at hkey
    exact List.append_cancel_right
      (List.append_cancel_left (List.append_cancel_left hkey))
  · intro h1 h2 h3 h4 hkey
    apply h3
    simp only [build_item_key, h1, h2, h4, List.append_assoc] at hkey
    exact List.append_cancel_right
      (List.append_cancel_left (List.append_cancel_left
        (List.append_cancel_left (List.append_cancel_left hkey))))
  · intro h1 h2 h3 h4 hkey
    apply h4
    simp only [build_item_key, h1, h2, h3, List.append_assoc] at hkey
    exact
      List.append_cancel_left (List.append_cancel_left
        (List.append_cancel_left (List.append_cancel_left
          (List.append_cancel_left (List.append_cancel_left hkey)))))

/-- Witness for C2 amended: two concrete parameter dicts whose enterDate
serializations differ and whose other three sub-fields agree get different
keys. -/
theorem build_item_key_fields_witness :
    build_item_key [((str "enterDate"), RVal.vstr (str "1140102"))] ≠
      build_item_key [((str "enterDate"), RVal.vstr (str "1140103"))] :=
  (build_item_key_fields
      [((str "enterDate"), RVal.vstr (str "1140102"))]
      [((str "enterDate"), RVal.vstr (str "1140103"))]).2.1
    (by decide) rfl rfl rfl

/-- Counterexample to C2 as stated: a dict with no serialNumber and the same
dict with serialNumber set to the string None differ on that sub-field, yet
build_item_key renders both as the sentinel text None and produces the same
key. -/
theorem build_item_key_sentinel_collision :
    build_item_key
        [((str "enterDate"), RVal.vstr (str "1140102")),
         ((str "marketKind"), RVal.vstr (str "sii")),
         ((str "companyId"), RVal.vstr (str "3004"))] =
      build_item_key
        [((str "enterDate"), RVal.vstr (str "1140102")),
         ((str "marketKind"), RVal.vstr (str "sii")),
         ((str "companyId"), RVal.vstr (str "3004")),
         ((str "serialNumber"), RVal.vstr (str "None"))] ∧
    pget
        [((str "enterDate"), RVal.vstr (str "1140102")),
         ((str "marketKind"), RVal.vstr (str "sii")),
         ((str "companyId"), RVal.vstr (str "3004"))]
        (str "serialNumber") = none ∧
    pget
        [((str "enterDate"), RVal.vstr (str "1140102")),
         ((str "marketKind"), RVal.vstr (str "sii")),
         ((str "companyId"), RVal.vstr (str "3004")),
         ((str "serialNumber"), RVal.vstr (str "None"))]
        (str "serialNumber") = some (RVal.vstr (str "None")) ∧
    (none : Option RVal) ≠ some (RVal.vstr (str "None")) :=
  ⟨rfl, rfl, rfl, fun h => Option.noConfusion h⟩

/-! Lemmas about the dedup ledger. -/

/-- Extracting the seen-key set from a persisted ledger document recovers
exactly the set that was saved. -/
theorem seen_keys_state_doc (X : Finset Str) : seen_keys_of (state_doc X) = X := by
  have h : ∀ l : List Str, strElems (RVal.vlist (l.map RVal.vstr)) = l := by
    intro l
    induction l with
    | nil => rfl
    | cons a t ih =>
      simp only [strElems, List.map_cons, List.filterMap_cons]
      simp only [strElems] at ih
      simp [ih]
  have h2 : dictGetD (state_doc X) (str "seen_keys") (.vlist []) =
      RVal.vlist ((pySorted X).map RVal.vstr) := by
    simp [state_doc, dictGetD, pget]
  show (strElems (dictGetD (state_doc X) (str "seen_keys") (.vlist []))).toFinset = X
  rw [h2, h]
  exact Finset.sort_toFinset _ X

/-- C6: the ledger round-trips: for any seen-key set X, persisting the state
document for X and loading it back from the same path yields a document
whose extracted seen-key set is exactly X, and the persisted sequence is
sorted. -/
theorem ledger_round_trip (fs : Fs) (p : Str) (X : Finset Str)
    (h : fs p = some (.ok (state_doc X))) :
    load_state fs p = .ok (state_doc X) ∧
    seen_keys_of (state_doc X) = X ∧
    List.Sorted (· ≤ ·) (pySorted X) :=
  ⟨by simp [load_state, h], seen_keys_state_doc X, Finset.sort_sorted _ X⟩

/-- Witness for C6 at a concrete file system holding the ledger for the
singleton set at the default state path. -/
theorem ledger_round_trip_witness :
    load_state (fun _ => some (.ok (state_doc {str "1140102|sii|3004|1"})))
        (str "public/state.json") =
      .ok (state_doc {str "1140102|sii|3004|1"}) ∧
    seen_keys_of (state_doc {str "1140102|sii|3004|1"}) = {str "1140102|sii|3004|1"} ∧
    List.Sorted (· ≤ ·) (pySorted {str "1140102|sii|3004|1"}) :=
  ledger_round_trip (fun _ => some (.ok (state_doc {str "1140102|sii|3004|1"})))
    (str "public/state.json") {str "1140102|sii|3004|1"} rfl

/-- C9: when no file exists at the state path, load_state succeeds with the
default document, whose extracted seen-key set is empty. -/
theorem load_state_missing (fs : Fs) (p : Str) (h : fs p = none) :
    load_state fs p = .ok (.vdict [(str "seen_keys", .vlist [])]) ∧
    seen_keys_of (.vdict [(str "seen_keys", .vlist [])]) = ∅ :=
  ⟨by simp [load_state, h], rfl⟩

/-- Witness for C9 at a concrete empty file system and the default state
path. -/
theorem load_state_missing_witness :
    load_state (fun _ => none) (str "public/state.json") =
      .ok (.vdict [(str "seen_keys", .vlist [])]) ∧
    seen_keys_of (.vdict [(str "seen_keys", .vlist [])]) = ∅ :=
  load_state_missing (fun _ => none) (str "public/state.json") rfl

/-- C5 amended: save_json creates the missing parent directories and then
writes the destination file directly in place; it performs no write to a
temporary location and no rename, so a crash mid-write can leave a
half-written ledger file. -/
theorem save_json_direct_write (p : Str) (obj : RVal) :
    FsOp.mkdirs (dirname p) ∈ save_json p obj ∧
    FsOp.writeFile p obj ∈ save_json p obj ∧
    (save_json p obj).any isRenameOp = false :=
  ⟨by simp [save_json], by simp [save_json], rfl⟩

/-- Counterexample to C5 as stated: saving the ledger at the default state
path performs no rename at all, and the destination path itself is opened
and written directly. -/
theorem save_json_no_rename :
    (save_json (str "public/state.json") (state_doc ∅)).any isRenameOp = false ∧
    FsOp.writeFile (str "public/state.json") (state_doc ∅) ∈
      save_json (str "public/state.json") (state_doc ∅) :=
  ⟨rfl, by simp [save_json]⟩

/-! Lemmas about the classification pipeline. -/

/-- Matched items are the row-order image of the processable rows: the loop
computes a filterMap over the listing. -/
theorem mainLoop_fst (keywords : List Str) (fetch : Params → RVal) (now : Str)
    (seen0 : Finset Str) (data : List RVal) :
    (mainLoop keywords fetch now seen0 data).1 =
      data.filterMap (processRow keywords fetch now) := by
  induction data with
  | nil => rfl
  | cons r rest ih =>
    cases h : processRow keywords fetch now r <;>
      simp [mainLoop, h, ih]

/-- New matched items are the matched items whose key is outside the loaded
seen-key set. -/
theorem mainLoop_snd (keywords : List Str) (fetch : Params → RVal) (now : Str)
    (seen0 : Finset Str) (data : List RVal) :
    (mainLoop keywords fetch now seen0 data).2 =
      (mainLoop keywords fetch now seen0 data).1.filter
        (fun it => decide (it.key ∉ seen0)) := by
  induction data with
  | nil => rfl
  | cons r rest ih =>
    cases h : processRow keywords fetch now r with
    | none => simpa [mainLoop, h] using ih
    | some item =>
      by_cases hm : item.key ∈ seen0 <;>
        simp [mainLoop, h, List.filter_cons, hm, ih]

/-- Adding every matched key to the seen set is a union with the key set of
the matched items. -/
theorem updateSeen_eq (seen : Finset Str) (items : List Item) :
    updateSeen seen items = seen ∪ (items.map Item.key).toFinset := by
  induction items generalizing seen with
  | nil => simp [updateSeen]
  | cons it rest ih =>
    show updateSeen (insert it.key seen) rest = _
    rw [ih]
    ext x
    simp [Finset.mem_union, Finset.mem_insert]

/-- C3: for every run, newlyMatched is exactly the filter of matched keeping
the items whose identity key was absent from the seen-key set loaded at the
start of the run; matched is the row-order filterMap of the listing (so
neither sequence is re-sorted), and newlyMatched is a subsequence of
matched. -/
theorem run_new_is_filter (keywords : List Str) (fetch : Params → RVal) (now : Str)
    (seen0 : Finset Str) (data : List RVal) :
    (mainLoop keywords fetch now seen0 data).1 =
      data.filterMap (processRow keywords fetch now) ∧
    (mainLoop keywords fetch now seen0 data).2 =
      (mainLoop keywords fetch now seen0 data).1.filter
        (fun it => decide (it.key ∉ seen0)) ∧
    (mainLoop keywords fetch now seen0 data).2.Sublist
      (mainLoop keywords fetch now seen0 data).1 :=
  ⟨mainLoop_fst keywords fetch now seen0 data,
   mainLoop_snd keywords fetch now seen0 data,
   by rw [mainLoop_snd]; exact List.filter_sublist _⟩

/-- C7: the seen-key set persisted at the end of a run (the state document
saved at line 224, extracted back) equals the union of the set loaded at the
start of the run and the keys of all matched items, and is therefore a
superset of the loaded set: the ledger never shrinks within an execution. -/
theorem ledger_persist_union (keywords : List Str) (fetch : Params → RVal)
    (now : Str) (seen0 : Finset Str) (data : List RVal) :
    seen_keys_of (state_doc (updateSeen seen0
        (mainLoop keywords fetch now seen0 data).1)) =
      seen0 ∪ ((mainLoop keywords fetch now seen0 data).1.map Item.key).toFinset ∧
    seen0 ⊆ seen_keys_of (state_doc (updateSeen seen0
        (mainLoop keywords fetch now seen0 data).1)) := by
  rw [seen_keys_state_doc, updateSeen_eq]
  exact ⟨rfl, Finset.subset_union_left⟩

/-- C1: idempotence. A first run against a listing starts from seen0 and
persists the state document for seen0 extended with every matched key; a
second run over the same listing, keywords, detail responses and timestamp,
starting from the seen-key set extracted from that persisted document,
produces the same matched sequence and an empty newlyMatched. -/
theorem second_run_nothing_new (keywords : List Str) (fetch : Params → RVal)
    (now : Str) (seen0 : Finset Str) (data : List RVal) :
    (mainLoop keywords fetch now
        (seen_keys_of (state_doc (updateSeen seen0
          (mainLoop keywords fetch now seen0 data).1))) data).1 =
      (mainLoop keywords fetch now seen0 data).1 ∧
    (mainLoop keywords fetch now
        (seen_keys_of (state_doc (updateSeen seen0
          (mainLoop keywords fetch now seen0 data).1))) data).2 = [] := by
  constructor
  · rw [mainLoop_fst, mainLoop_fst]
  · rw [mainLoop_snd, seen_keys_state_doc, updateSeen_eq]
    apply List.filter_eq_nil_iff.mpr
    intro it hmem
    rw [mainLoop_fst] at hmem
    rw [mainLoop_fst]
    simp only [decide_not, Bool.not_eq_true', decide_eq_false_iff_not, not_not]
    apply Finset.mem_union_right
    rw [List.mem_toFinset]
    exact List.mem_map_of_mem Item.key hmem

/-- Rows that fail the shape check or the parameter check are classified to
none by the loop body. -/
theorem processRow_none_of_bad (keywords : List Str) (fetch : Params → RVal)
    (now : Str) (r : RVal)
    (h : rowShapeOk r = false ∨ rowParamsOk r = false) :
    processRow keywords fetch now r = none := by
  rw [processRow.eq_def]
  split
  · rename_i c0 c1 c2 c3 c4 c5 rest
    rcases h with h | h
    · simp [rowShapeOk] at h
    · cases hp : paramsOf c5 with
      | none => simp [hp]
      | some ps => simp [rowParamsOk, hp] at h
  · rfl

/-- Removing a row the loop body classifies to none from anywhere in the
listing leaves the result of the loop unchanged. -/
theorem mainLoop_skip (keywords : List Str) (fetch : Params → RVal) (now : Str)
    (seen0 : Finset Str) (pre post : List RVal) (r : RVal)
    (h : processRow keywords fetch now r = none) :
    mainLoop keywords fetch now seen0 (pre ++ r :: post) =
      mainLoop keywords fetch now seen0 (pre ++ post) := by
  induction pre with
  | nil => simp [mainLoop, h]
  | cons x rest ih =>
    cases hx : processRow keywords fetch now x <;>
      simp [mainLoop, hx, ih]

/-- C8: a listing row that is not an array of at least six cells, or whose
extracted detail parameters are not a dict, is skipped: the loop classifies
it to none, and the run over a listing containing it equals the run over
the listing without it, wherever it stands, so the row reaches neither
matched nor newlyMatched and every other row is still processed. In this
total model the skip is by construction free of exceptions. -/
theorem bad_rows_skipped (keywords : List Str) (fetch : Params → RVal)
    (now : Str) (seen0 : Finset Str) (pre post : List RVal) (r : RVal)
    (h : rowShapeOk r = false ∨ rowParamsOk r = false) :
    processRow keywords fetch now r = none ∧
    mainLoop keywords fetch now seen0 (pre ++ r :: post) =
      mainLoop keywords fetch now seen0 (pre ++ post) :=
  have hn := processRow_none_of_bad keywords fetch now r h
  ⟨hn, mainLoop_skip keywords fetch now seen0 pre post r hn⟩

/-- Witness for C8: a concrete empty-array row is skipped and its presence
ahead of a well-formed row changes nothing. -/
theorem bad_rows_skipped_witness :
    processRow [str "kw"] (fun _ => RVal.vnull) (str "2026-01-04 08:00:00")
        (RVal.vlist []) = none ∧
    mainLoop [str "kw"] (fun _ => RVal.vnull) (str "2026-01-04 08:00:00") ∅
        [RVal.vlist [], sampleRow] =
      mainLoop [str "kw"] (fun _ => RVal.vnull) (str "2026-01-04 08:00:00") ∅
        [sampleRow] :=
  bad_rows_skipped [str "kw"] (fun _ => RVal.vnull) (str "2026-01-04 08:00:00") ∅
    [] [sampleRow] (RVal.vlist []) (Or.inl rfl)

/-- C10: no intra-run deduplication. For a key k absent from the loaded
seen-key set, the number of newlyMatched items carrying key k equals the
number of matched items carrying it, which equals the number of listing rows
the loop classifies to an item with key k: duplicate rows yielding the same
key all appear in matched and all appear in newlyMatched, because the
seen-key set is only extended after the whole listing is classified. -/
theorem no_intra_run_dedup (keywords : List Str) (fetch : Params → RVal)
    (now : Str) (seen0 : Finset Str) (data : List RVal) (k : Str)
    (hk : k ∉ seen0) :
    (mainLoop keywords fetch now seen0 data).1.countP
        (fun it => decide (it.key = k)) =
      data.countP (fun row =>
        ((processRow keywords fetch now row).map
          (fun it => decide (it.key = k))).getD false) ∧
    (mainLoop keywords fetch now seen0 data).2.countP
        (fun it => decide (it.key = k)) =
      data.countP (fun row =>
        ((processRow keywords fetch now row).map
          (fun it => decide (it.key = k))).getD false) := by
  induction data with
  | nil => exact ⟨rfl, rfl⟩
  | cons r rest ih =>
    obtain ⟨ih1, ih2⟩ := ih
    cases hr : processRow keywords fetch now r with
    | none =>
      refine ⟨?_, ?_⟩
      · simpa [mainLoop, hr, List.countP_cons] using ih1
      · simpa [mainLoop, hr, List.countP_cons] using ih2
    | some item =>
      by_cases hik : item.key = k
      · have hnot : item.key ∉ seen0 := by rw [hik]; exact hk
        constructor <;>
          simp [mainLoop, hr, List.countP_cons, hnot, hik, hk, ih1, ih2]
      · by_cases hm : item.key ∈ seen0 <;> constructor <;>
          simp [mainLoop, hr, List.countP_cons, hm, hik, ih1, ih2]

/-- Witness for C10: a listing containing the same well-formed row twice,
against an empty seen-key set, puts both copies into newlyMatched. -/
theorem no_intra_run_dedup_witness :
    (mainLoop [str "kw"] (fun _ => RVal.vnull) (str "2026-01-04 08:00:00") ∅
        [sampleRow, sampleRow]).2.countP
        (fun it => decide (it.key = str "1140102|None|None|None")) = 2 :=
  ((no_intra_run_dedup [str "kw"] (fun _ => RVal.vnull)
      (str "2026-01-04 08:00:00") ∅ [sampleRow, sampleRow]
      (str "1140102|None|None|None") (Finset.not_mem_empty _)).2).trans (by rfl)

end MopsGetter
